import Mathlib

/-!
Verification of the PWP (Price-Weller-Pinkel) mixed-layer model in
src/src/pwp.py (the current refactor of the module; src/pwp.py is an older
variant of the same file).  The depth-indexed arrays of a profile are
embedded as functions over cell indices with values in the rationals, the
ideal-arithmetic reading of the float arrays of the source.  The equation
of state (gsw.rho_t_exact) is an external collaborator consumed as a black
box and is therefore a parameter of every operation that refreshes
density.
-/

/-- Equation of state: maps salinity, temperature and depth to density.
In the source this is gsw.rho_t_exact, an external library function. -/
abbrev EOS := ℚ → ℚ → ℚ → ℚ

/-- A vertical profile: `N` cells, with the co-indexed arrays of the
source (coordinate `z`, fields temp, sal, dens, u, v, absorb).  Values at
indices at or above `N` are irrelevant. -/
@[ext]
structure Profile where
  N : ℕ
  z : ℕ → ℚ
  temp : ℕ → ℚ
  sal : ℕ → ℚ
  dens : ℕ → ℚ
  u : ℕ → ℚ
  v : ℕ → ℚ
  absorb : ℕ → ℚ

/-- Simulation parameters, mirroring the `World` dataclass of the source.
The source computes the Coriolis parameter as
`f() = 4 pi sin(lat / 180 * pi) / 24 / 3600`, a transcendental function of
`lat`; the embedding carries the resulting value as the field `fcor`. -/
structure World where
  lat : ℚ
  fcor : ℚ
  dz : ℚ := 1/2
  dt : ℚ := 300
  zmax : ℚ := 150
  mld_thres : ℚ := 1/20
  Ri_g : ℚ := 1/4
  Ri_b : ℚ := 13/20
  rkz : ℚ := 1/1000000
  g : ℚ := 981/100
  beta_1 : ℚ := 3/5
  beta_2 : ℚ := 20
  cpw : ℚ := 4183
  drag_coef : ℚ := 1/10
  wind_ON : Bool := true
  heat_ON : Bool := true
  drag_ON : Bool := true
  emp_ON : Bool := true

/-- One forcing record: wind stress components, shortwave and
non-shortwave heat fluxes, evaporation minus precipitation. -/
structure Forcing where
  taux : ℚ
  tauy : ℚ
  q_in : ℚ
  q_out : ℚ
  emp : ℚ

/-- Runtime failures of the Python source: `indexError` models the
IndexError raised by indexing an empty numpy array, `nameError` models the
NameError raised by reading an undefined global name. -/
inductive PwpError where
  | indexError : PwpError
  | nameError : PwpError
deriving DecidableEq

/-- World.find_MLD.  The source computes
`mld_idx = np.flatnonzero(rho_diff > self.mld_thres)[0]`: when no index
is above threshold, the `[0]` indexing of the empty result raises
IndexError.  The subsequent `assert mld_idx.size != 0` can never fire: it
runs after the indexing already failed, and the `.size` of the 0-d scalar
`mld_idx` is always 1. -/
def find_MLD (w : World) (p : Profile) : Except PwpError (ℚ × ℕ) :=
  match (List.range p.N).find? (fun i => decide (w.mld_thres < p.dens i - p.dens 0)) with
  | none => Except.error PwpError.indexError
  | some i => Except.ok (p.z i, i)

/-- World.rotate.  The source performs two in-place array updates in
sequence: `u += f * v * dt / 2` and then `v += - f * u * dt / 2`, so the
second line reads the already-updated `u`. -/
def rotate (w : World) (p : Profile) : Profile :=
  let unew : ℕ → ℚ := fun i => p.u i + w.fcor * p.v i * w.dt / 2
  { p with u := unew, v := fun i => p.v i - w.fcor * unew i * w.dt / 2 }

/-- Mean of the slice `[a:b]` of an array of length `N` (Python slicing
clamps the upper bound at `N`; the slice is empty when `a >= min b N`). -/
def sliceMean (N : ℕ) (f : ℕ → ℚ) (a b : ℕ) : ℚ :=
  (∑ i ∈ Finset.Ico a (min b N), f i) / ((Finset.Ico a (min b N)).card : ℚ)

/-- Assign the value `x` to the slice `[a:b]` of an array of length `N`,
with Python slice clamping. -/
def setSlice (N : ℕ) (f : ℕ → ℚ) (a b : ℕ) (x : ℚ) : ℕ → ℚ :=
  fun i => if a ≤ i ∧ i < min b N then x else f i

/-- mix5: set u, v, temp and sal on the slice `[ztop:zbot]` to their mean
over that slice, then recompute dens on the same slice from the new sal
and temp via the equation of state. -/
def mix5 (eos : EOS) (p : Profile) (ztop zbot : ℕ) : Profile :=
  let newu := setSlice p.N p.u ztop zbot (sliceMean p.N p.u ztop zbot)
  let newv := setSlice p.N p.v ztop zbot (sliceMean p.N p.v ztop zbot)
  let newtemp := setSlice p.N p.temp ztop zbot (sliceMean p.N p.temp ztop zbot)
  let newsal := setSlice p.N p.sal ztop zbot (sliceMean p.N p.sal ztop zbot)
  { p with
    u := newu, v := newv, temp := newtemp, sal := newsal,
    dens := fun i =>
      if ztop ≤ i ∧ i < min zbot p.N then eos (newsal i) (newtemp i) (p.z i)
      else p.dens i }

/-- The gradient used by `profile.differentiate('z')` in the source:
numpy.gradient with edge_order 1, i.e. one-sided differences at the two
boundaries and the second-order centered difference (general nonuniform
form) in the interior. -/
def npGradient (x f : ℕ → ℚ) (N : ℕ) (i : ℕ) : ℚ :=
  if i = 0 then (f 1 - f 0) / (x 1 - x 0)
  else if i = N - 1 then (f (N-1) - f (N-2)) / (x (N-1) - x (N-2))
  else
    let hd := x i - x (i-1)
    let hs := x (i+1) - x i
    (hs^2 * f (i+1) + (hd^2 - hs^2) * f i - hd^2 * f (i-1)) / (hs * hd * (hd + hs))

/-- rho_grad of remove_static_instability:
`- profile['dens'].differentiate('z')`. -/
def rho_grad (p : Profile) (i : ℕ) : ℚ :=
  - npGradient p.z p.dens p.N i

/-- One pass of the body of the while-loop of remove_static_instability:
find the first index with positive `rho_grad`; if none, the profile is
stable (`none`); otherwise homogenize the window
`[max(0, i0-2) : min(N-1, i0+2)]` via mix5. -/
def rsiStep (eos : EOS) (p : Profile) : Option Profile :=
  match (List.range p.N).find? (fun i => decide (0 < rho_grad p i)) with
  | none => none
  | some i0 => some (mix5 eos p (i0 - 2) (min (p.N - 1) (i0 + 2)))

/-- remove_static_instability.  The source loops `while stat_unstable:`
with no iteration cap; the embedding runs the loop on fuel, `none`
meaning the loop has not exited within `fuel` iterations. -/
def remove_static_instability (eos : EOS) : ℕ → Profile → Option Profile
  | 0, _ => none
  | fuel+1, p =>
    match rsiStep eos p with
    | none => some p
    | some q => remove_static_instability eos fuel q

/-- World.update_surface: apply heat and salinity fluxes to the uppermost
cell only. -/
def update_surface (w : World) (p : Profile) (frc : Forcing) : Profile :=
  let dT := (frc.q_in * p.absorb 0 + frc.q_out) * w.dt / (w.dz * p.dens 0 * w.cpw)
  let dS := frc.emp * p.sal 0 * w.dt / w.dz
  { p with
    temp := fun i => if i = 0 then p.temp 0 + dT else p.temp i,
    sal := fun i => if i = 0 then p.sal 0 + dS else p.sal i }

/-- World.subsurface_sw: apply downwelling shortwave radiation to the
cells below the surface (slice `[1:]`). -/
def subsurface_sw (w : World) (p : Profile) (frc : Forcing) : Profile :=
  { p with
    temp := fun i =>
      if 1 ≤ i ∧ i < p.N then
        p.temp i + frc.q_in * p.absorb i * w.dt / (w.dz * w.cpw * p.dens i)
      else p.temp i }

/-- World.rayleigh_friction: when drag_ON, scale both velocity components
by `1 - drag_coef * f * dt`; otherwise a no-op. -/
def rayleigh_friction (w : World) (p : Profile) : Profile :=
  if w.drag_ON then
    let drag_loss := w.drag_coef * w.fcor * w.dt
    { p with
      u := fun i => p.u i * (1 - drag_loss),
      v := fun i => p.v i * (1 - drag_loss) }
  else p

/-- World.wind_on_ML: apply the momentum forcing uniformly to the cells
strictly above the mixed-layer index (slice `[:mld_idx]`).  Propagates
the failure of find_MLD. -/
def wind_on_ML (w : World) (p : Profile) (frc : Forcing) : Except PwpError Profile :=
  match find_MLD w p with
  | Except.error e => Except.error e
  | Except.ok (mld, mld_idx) =>
    let mass := mld * p.dens 0
    let dU := frc.taux / mass * w.dt
    let dV := frc.tauy / mass * w.dt
    Except.ok { p with
      u := fun i => if i < mld_idx then p.u i + dU else p.u i,
      v := fun i => if i < mld_idx then p.v i + dV else p.v i }

/-- World.flag_forcing.  The body begins with `if ~ wind_ON :`, which
reads the undefined global name `wind_ON` (the dataclass fields are only
reachable as `self.wind_ON`), so every call raises NameError before any
branch is taken.  Even with the names fixed, `~` on a Python bool is
bitwise complement (-2 or -1, both truthy), so the three conditions would
always hold. -/
def flag_forcing (_w : World) (_frc : Forcing) : Except PwpError Forcing :=
  Except.error PwpError.nameError

/-- One iteration of the scan of World.bulk_mix at index `jj`, given the
surface density `rho0` and surface velocity `(u0, v0)` captured before
the scan.  `dif_vel` is `np.abs((u + 1j v) - vel_0) ** 2`, the squared
modulus of the complex velocity difference. -/
def bulkStep (eos : EOS) (w : World) (rho0 u0 v0 : ℚ) (p : Profile) (jj : ℕ) : Profile :=
  if (p.u jj - u0)^2 + (p.v jj - v0)^2 = 0 then p
  else if w.g * (p.dens jj - rho0) / ((p.u jj - u0)^2 + (p.v jj - v0)^2) / (w.dz * (jj : ℚ)) > w.Ri_b
  then p
  else mix5 eos p 0 jj

/-- World.bulk_mix: find the mixed-layer index, capture the surface
density and velocity, then scan `jj` from `mld_idx` to `N-1` in
increasing order applying `bulkStep`. -/
def bulk_mix (eos : EOS) (w : World) (p : Profile) : Except PwpError Profile :=
  match find_MLD w p with
  | Except.error e => Except.error e
  | Except.ok (_, mld_idx) =>
    Except.ok ((List.range' mld_idx (p.N - mld_idx)).foldl
      (bulkStep eos w (p.dens 0) (p.u 0) (p.v 0)) p)

/-- Initial Richardson-number vector of World.grad_mix (`none` models the
np.inf assigned when the squared shear is at most 1e-6). -/
def RiInit (w : World) (p : Profile) (j : ℕ) : Option ℚ :=
  let dif_rho := p.dens (j+1) - p.dens j
  let dif_vel := (p.u (j+1) - p.u j)^2 + (p.v (j+1) - p.v j)^2
  if dif_vel > 1/1000000 then some (w.g * w.dz * dif_rho / dif_vel) else none

/-- Strict order on Richardson values with `none` as plus infinity. -/
def riLt : Option ℚ → Option ℚ → Bool
  | some x, some y => decide (x < y)
  | some _, none => true
  | none, _ => false

/-- np.min together with np.argmin over the first `M` entries of the
Richardson vector: the first index attaining the minimum, with its
value. -/
def argminRi (Ri : ℕ → Option ℚ) (M : ℕ) : ℕ × Option ℚ :=
  (List.range M).foldl
    (fun best j => if riLt (Ri j) best.2 then (j, Ri j) else best) (0, Ri 0)

/-- The symmetric partial exchange of World.grad_mix at the pair
`(j, j+1)`: for each of temp, sal, u, v the delta
`(value[j+1] - value[j]) * fblend / 2` is subtracted from cell `j+1` and
added to cell `j`. -/
def gradExchange (fblend : ℚ) (p : Profile) (j : ℕ) : Profile :=
  let dT := (p.temp (j+1) - p.temp j) * fblend / 2
  let dS := (p.sal (j+1) - p.sal j) * fblend / 2
  let dU := (p.u (j+1) - p.u j) * fblend / 2
  let dV := (p.v (j+1) - p.v j) * fblend / 2
  { p with
    temp := fun i => if i = j + 1 then p.temp (j+1) - dT
      else if i = j then p.temp j + dT else p.temp i,
    sal := fun i => if i = j + 1 then p.sal (j+1) - dS
      else if i = j then p.sal j + dS else p.sal i,
    u := fun i => if i = j + 1 then p.u (j+1) - dU
      else if i = j then p.u j + dU else p.u i,
    v := fun i => if i = j + 1 then p.v (j+1) - dV
      else if i = j then p.v j + dV else p.v i }

/-- The density refresh of World.grad_mix after an exchange at
`(idx, idx+1)`: the source assigns to the slice
`dens[Ri_min_idx : Ri_min_idx + 1]`, which selects the single element at
`idx`, so only that cell is recomputed. -/
def gradDensUpdate (eos : EOS) (p : Profile) (idx : ℕ) : Profile :=
  { p with dens := fun i =>
      if i = idx then eos (p.sal idx) (p.temp idx) (p.z idx) else p.dens i }

/-- The local Richardson recomputation of World.grad_mix: entries `jj`
from `max(0, idx-2)` up to but excluding `min(idx+2, N-1)` are refreshed,
this time with the shear threshold 1e-10. -/
def riRecompute (w : World) (p : Profile) (Ri : ℕ → Option ℚ) (idx : ℕ) : ℕ → Option ℚ :=
  fun j =>
    if idx - 2 ≤ j ∧ j < min (idx + 2) (p.N - 1) then
      let dif_rho := p.dens (j+1) - p.dens j
      let dif_vel := (p.u (j+1) - p.u j)^2 + (p.v (j+1) - p.v j)^2
      if dif_vel > 1/10000000000 then some (w.g * w.dz * dif_rho / dif_vel) else none
    else Ri j

/-- The `while True:` loop of World.grad_mix, on fuel (`none` when the
loop has not returned within `fuel` iterations; the source has no
iteration cap).  The loop exits only when the minimal Richardson number
(np.inf when every shear is below threshold) exceeds Ri_g. -/
def grad_mix_loop (eos : EOS) (w : World) : ℕ → Profile → (ℕ → Option ℚ) → Option Profile
  | 0, _, _ => none
  | fuel+1, p, Ri =>
    match argminRi Ri (p.N - 1) with
    | (_, none) => some p
    | (idx, some rmin) =>
      if w.Ri_g < rmin then some p
      else
        let Ri_con := 1/50 + (w.Ri_g - rmin) / 2
        let Ri_new := w.Ri_g + Ri_con / 5
        let fblend := 1 - rmin / Ri_new
        let p1 := gradDensUpdate eos (gradExchange fblend p idx) idx
        grad_mix_loop eos w fuel p1 (riRecompute w p1 Ri idx)

/-- World.grad_mix: initialize the Richardson vector and run the
relaxation loop. -/
def grad_mix (eos : EOS) (w : World) (fuel : ℕ) (p : Profile) : Option Profile :=
  grad_mix_loop eos w fuel p (RiInit w p)

/-- pwp_step: one full timestep.  Fluxes, full-column density refresh,
static-instability relief, rotate / wind / friction / rotate, bulk
Richardson mixing, gradient Richardson mixing.  `none` when one of the
two uncapped convergence loops has not exited within its fuel;
`some (error e)` when a Python exception propagates. -/
def pwp_step (eos : EOS) (w : World) (fuelRSI fuelGM : ℕ) (p0 : Profile)
    (frc : Forcing) : Option (Except PwpError Profile) :=
  let p1 := update_surface w p0 frc
  let p2 := subsurface_sw w p1 frc
  let p3 := { p2 with dens := fun i => eos (p2.sal i) (p2.temp i) (p2.z i) }
  match remove_static_instability eos fuelRSI p3 with
  | none => none
  | some p4 =>
    let p5 := rotate w p4
    match wind_on_ML w p5 frc with
    | Except.error e => some (Except.error e)
    | Except.ok p6 =>
      let p7 := rayleigh_friction w p6
      let p8 := rotate w p7
      match bulk_mix eos w p8 with
      | Except.error e => some (Except.error e)
      | Except.ok p9 =>
        match grad_mix eos w fuelGM p9 with
        | none => none
        | some p10 => some (Except.ok p10)

/-- Assigning the slice mean over a slice leaves the sum over that slice
unchanged (exactly, in rational arithmetic). -/
lemma setSlice_sum (N : ℕ) (f : ℕ → ℚ) (a b : ℕ) :
    ∑ i ∈ Finset.Ico a (min b N), setSlice N f a b (sliceMean N f a b) i
      = ∑ i ∈ Finset.Ico a (min b N), f i := by
  have h1 : ∀ i ∈ Finset.Ico a (min b N),
      setSlice N f a b (sliceMean N f a b) i = sliceMean N f a b := by
    intro i hi
    rw [Finset.mem_Ico] at hi
    simp [setSlice, hi.1, hi.2]
  rw [Finset.sum_congr rfl h1, Finset.sum_const, nsmul_eq_mul]
  rcases Nat.eq_zero_or_pos (Finset.Ico a (min b N)).card with h0 | hpos
  · have he : Finset.Ico a (min b N) = ∅ := Finset.card_eq_zero.mp h0
    simp [he]
  · have hne : ((Finset.Ico a (min b N)).card : ℚ) ≠ 0 := by
      exact_mod_cast hpos.ne'
    rw [sliceMean, mul_comm, div_mul_cancel₀ _ hne]

/-- Claim C8: for every profile and every index range, mix5 preserves the
sum (equivalently the mean) of each mixed quantity, u, v, temp and sal,
over the mixed window: the sum over the slice is the same before and
after the call, exactly in the rational embedding. -/
theorem mix5_conserves_sums (eos : EOS) (p : Profile) (ztop zbot : ℕ) :
    (∑ i ∈ Finset.Ico ztop (min zbot p.N), (mix5 eos p ztop zbot).u i
      = ∑ i ∈ Finset.Ico ztop (min zbot p.N), p.u i)
    ∧ (∑ i ∈ Finset.Ico ztop (min zbot p.N), (mix5 eos p ztop zbot).v i
      = ∑ i ∈ Finset.Ico ztop (min zbot p.N), p.v i)
    ∧ (∑ i ∈ Finset.Ico ztop (min zbot p.N), (mix5 eos p ztop zbot).temp i
      = ∑ i ∈ Finset.Ico ztop (min zbot p.N), p.temp i)
    ∧ (∑ i ∈ Finset.Ico ztop (min zbot p.N), (mix5 eos p ztop zbot).sal i
      = ∑ i ∈ Finset.Ico ztop (min zbot p.N), p.sal i) :=
  ⟨setSlice_sum p.N p.u ztop zbot, setSlice_sum p.N p.v ztop zbot,
   setSlice_sum p.N p.temp ztop zbot, setSlice_sum p.N p.sal ztop zbot⟩

/-- Claim C10: every symmetric partial exchange of gradient-Richardson
mixing leaves the two-cell sums of temp, sal, u and v over the pair
`(j, j+1)` exactly unchanged: the same delta is added to one cell and
subtracted from the other. -/
theorem gradExchange_pair_sums (fblend : ℚ) (p : Profile) (j : ℕ) :
    ((gradExchange fblend p j).temp j + (gradExchange fblend p j).temp (j+1)
      = p.temp j + p.temp (j+1))
    ∧ ((gradExchange fblend p j).sal j + (gradExchange fblend p j).sal (j+1)
      = p.sal j + p.sal (j+1))
    ∧ ((gradExchange fblend p j).u j + (gradExchange fblend p j).u (j+1)
      = p.u j + p.u (j+1))
    ∧ ((gradExchange fblend p j).v j + (gradExchange fblend p j).v (j+1)
      = p.v j + p.v (j+1)) := by
  have hj : ¬ (j = j + 1) := by omega
  refine ⟨?_, ?_, ?_, ?_⟩ <;> simp [gradExchange, hj]

/-- Claim C2, amended: each call to rotate updates u as
`u + f * v * dt / 2`, but the v update reads the just-updated u, so
`v` becomes `v - f * (u + f * v * dt / 2) * dt / 2`. -/
theorem rotate_update_formulas (w : World) (p : Profile) (i : ℕ) :
    (rotate w p).u i = p.u i + w.fcor * p.v i * w.dt / 2
    ∧ (rotate w p).v i
      = p.v i - w.fcor * (p.u i + w.fcor * p.v i * w.dt / 2) * w.dt / 2 :=
  ⟨rfl, rfl⟩

/-- World with the Coriolis value 1 and dt 2, used to exhibit the rotate
aliasing. -/
def wRot : World := { lat := 0, fcor := 1, dt := 2 }

/-- One-cell profile with u = 0, v = 1. -/
def pRot : Profile :=
  { N := 1, z := fun i => (i : ℚ), temp := fun _ => 0, sal := fun _ => 0,
    dens := fun _ => 1, u := fun _ => 0, v := fun _ => 1, absorb := fun _ => 0 }

/-- Claim C2, counterexample: with f = 1, dt = 2, u = 0, v = 1, the claim
predicts the rotated v to be `v - f*u*dt/2 = 1` (pre-update u), but the
code produces 0 because the v update reads the already-updated u. -/
theorem rotate_uses_updated_u_cex :
    (rotate wRot pRot).v 0 ≠ pRot.v 0 - wRot.fcor * pRot.u 0 * wRot.dt / 2 := by
  with_unfolding_all decide

/-- World with default threshold (0.05) used for the fully mixed column. -/
def wMld : World := { lat := 0, fcor := 0 }

/-- A fully mixed column: three cells of identical density. -/
def pMixed : Profile :=
  { N := 3, z := fun i => (i : ℚ), temp := fun _ => 10, sal := fun _ => 35,
    dens := fun _ => 1, u := fun _ => 0, v := fun _ => 0, absorb := fun _ => 0 }

/-- Claim C1: on a column whose density nowhere exceeds the surface
density by more than the threshold, find_MLD raises IndexError (from
indexing the empty flatnonzero result) instead of reporting the
undefined-MLD condition: the assert meant to report it is dead code. -/
theorem find_MLD_crash_on_mixed_column :
    find_MLD wMld pMixed = Except.error PwpError.indexError := by
  with_unfolding_all rfl

/-- Claim C9: whenever the MLD threshold is positive, the index returned
by find_MLD is at least 1 (index 0 can never be selected since
`dens[0] - dens[0] = 0` never exceeds a positive threshold), and hence 0
is not among the indices `mld_idx, ..., N-1` scanned by bulk_mix, so the
denominator `dz * j` is never evaluated at `j = 0`. -/
theorem find_MLD_index_positive (w : World) (p : Profile) (m : ℚ) (i : ℕ)
    (hth : 0 < w.mld_thres) (hf : find_MLD w p = Except.ok (m, i)) :
    1 ≤ i ∧ 0 ∉ List.range' i (p.N - i) := by
  unfold find_MLD at hf
  cases hfind : (List.range p.N).find?
      (fun k => decide (w.mld_thres < p.dens k - p.dens 0)) with
  | none => rw [hfind] at hf; exact absurd hf (by simp)
  | some k =>
    rw [hfind] at hf
    simp only [Except.ok.injEq, Prod.mk.injEq] at hf
    have hpred := List.find?_some hfind
    have hlt : w.mld_thres < p.dens k - p.dens 0 := of_decide_eq_true hpred
    have hk : 1 ≤ k := by
      by_contra h
      have hk0 : k = 0 := by omega
      rw [hk0, sub_self] at hlt
      linarith
    have hki : k = i := hf.2
    constructor
    · omega
    · intro hmem
      rw [List.mem_range'_1] at hmem
      omega

/-- World with positive threshold 1/2 for the witness of C9. -/
def wPos : World := { lat := 0, fcor := 0, mld_thres := 1/2 }

/-- Two-cell profile with densities 1 and 2: the first index above the
threshold 1/2 is 1. -/
def pPos : Profile :=
  { N := 2, z := fun i => (i : ℚ), temp := fun _ => 0, sal := fun _ => 0,
    dens := fun i => if i = 0 then 1 else 2,
    u := fun _ => 0, v := fun _ => 0, absorb := fun _ => 0 }

/-- Witness for C9: at the concrete two-cell profile the returned index
is 1 and the bulk scan misses index 0. -/
theorem find_MLD_index_positive_witness :
    1 ≤ 1 ∧ 0 ∉ List.range' 1 (pPos.N - 1) :=
  find_MLD_index_positive wPos pPos (pPos.z 1) 1 (by with_unfolding_all decide)
    (by with_unfolding_all rfl)

/-- The mean of the one-cell slice `[0:1]` is the surface value. -/
lemma sliceMean_01 (N : ℕ) (g : ℕ → ℚ) (hN : 1 ≤ N) :
    sliceMean N g 0 1 = g 0 := by
  have h1 : min 1 N = 1 := min_eq_left hN
  simp [sliceMean, h1, ← Finset.range_eq_Ico, Finset.sum_range_one,
    Finset.card_range]

/-- Assigning the one-cell slice `[0:1]` its own mean is the identity. -/
lemma setSlice_01_id (N : ℕ) (g : ℕ → ℚ) (hN : 1 ≤ N) :
    setSlice N g 0 1 (sliceMean N g 0 1) = g := by
  funext i
  rw [sliceMean_01 N g hN]
  rcases i with _ | n
  · simp [setSlice]
  · have hc : ¬ (0 ≤ n + 1 ∧ n + 1 < min 1 N) := by omega
    simp [setSlice, hc]

/-- Equation of state returning the salinity; black-box choice used to
build a profile on which the relief mixing pass is a fixed point. -/
def eosSal : EOS := fun s _ _ => s

/-- Two-cell statically unstable profile (density decreasing with depth)
whose sal array equals its dens array.  The relief window at the first
unstable index 0 is the slice `[0 : min(N-1, 2)] = [0:1]`, a single
cell, so the homogenization pass changes nothing at all. -/
def pFix : Profile :=
  { N := 2, z := fun i => (i : ℚ), temp := fun _ => 0,
    sal := fun i => if i = 0 then 2 else 1,
    dens := fun i => if i = 0 then 2 else 1,
    u := fun _ => 0, v := fun _ => 0, absorb := fun _ => 0 }

/-- The relief mixing pass leaves pFix unchanged. -/
lemma mix5_pFix : mix5 eosSal pFix 0 1 = pFix := by
  have h2 : pFix.N = 2 := rfl
  have hN : 1 ≤ pFix.N := by omega
  refine Profile.ext rfl rfl ?_ ?_ ?_ ?_ ?_ rfl
  · exact setSlice_01_id pFix.N pFix.temp hN
  · exact setSlice_01_id pFix.N pFix.sal hN
  · show (fun i =>
        if 0 ≤ i ∧ i < min 1 pFix.N then
          eosSal (setSlice pFix.N pFix.sal 0 1 (sliceMean pFix.N pFix.sal 0 1) i)
            (setSlice pFix.N pFix.temp 0 1 (sliceMean pFix.N pFix.temp 0 1) i)
            (pFix.z i)
        else pFix.dens i) = pFix.dens
    rw [setSlice_01_id pFix.N pFix.sal hN, setSlice_01_id pFix.N pFix.temp hN]
    funext i
    rcases i with _ | n
    · simp [eosSal, pFix]
    · have hc : ¬ (0 ≤ n + 1 ∧ n + 1 < min 1 pFix.N) := by
        rw [h2]; omega
      simp [hc]
  · exact setSlice_01_id pFix.N pFix.u hN
  · exact setSlice_01_id pFix.N pFix.v hN

/-- pFix is flagged unstable (first positive rho_grad at index 0) and the
loop body maps it to itself. -/
lemma rsiStep_pFix : rsiStep eosSal pFix = some pFix := by
  have hfind : (List.range pFix.N).find?
      (fun i => decide (0 < rho_grad pFix i)) = some 0 := by
    with_unfolding_all rfl
  unfold rsiStep
  rw [hfind]
  show some (mix5 eosSal pFix 0 1) = some pFix
  rw [mix5_pFix]

/-- A profile that the loop body maps to itself while flagging it
unstable makes the uncapped while-loop of remove_static_instability spin
forever: no fuel suffices. -/
lemma rsi_stuck_none (eos : EOS) (p : Profile) (h : rsiStep eos p = some p) :
    ∀ fuel, remove_static_instability eos fuel p = none := by
  intro fuel
  induction fuel with
  | zero => rfl
  | succ n ih =>
    simp only [remove_static_instability, h]
    exact ih

/-- The static-instability relief loop never exits on profile p under
equation of state eos, whatever the iteration budget. -/
def rsiDiverges (eos : EOS) (p : Profile) : Prop :=
  ∀ fuel, remove_static_instability eos fuel p = none

/-- Claim C3, amended: neither convergence loop imposes an iteration cap
or surfaces a non-convergence error; each runs until its convergence test
passes.  In particular static-instability relief iterates forever on any
profile that its homogenization pass leaves unchanged while the gradient
check still flags instability, so the loops do not terminate on every
input. -/
theorem remove_static_instability_uncapped (eos : EOS) (p : Profile)
    (h : rsiStep eos p = some p) :
    ∀ fuel, remove_static_instability eos fuel p = none :=
  rsi_stuck_none eos p h

/-- Witness for the amended C3: the concrete profile pFix is such a fixed
point, and the loop has not exited after 100 iterations. -/
theorem remove_static_instability_uncapped_witness :
    rsiStep eosSal pFix = some pFix
    ∧ remove_static_instability eosSal 100 pFix = none :=
  ⟨rsiStep_pFix, remove_static_instability_uncapped eosSal pFix rsiStep_pFix 100⟩

/-- Claim C3, counterexample: the claim says both loops terminate on
every input; static-instability relief runs forever on the concrete
profile pFix (with the equation of state eosSal), for every iteration
budget. -/
theorem static_relief_nonterminating : rsiDiverges eosSal pFix :=
  rsi_stuck_none eosSal pFix rsiStep_pFix

/-- Alternating-density column: the centered-difference gradient used by
the relief loop vanishes in the interior even though adjacent cells
invert. -/
def pAlt : Profile :=
  { N := 4, z := fun i => (i : ℚ), temp := fun _ => 0, sal := fun _ => 0,
    dens := fun i => if i = 0 then 1 else if i = 1 then 2 else if i = 2 then 1 else 2,
    u := fun _ => 0, v := fun _ => 0, absorb := fun _ => 0 }

/-- Claim C7: on dens = [1,2,1,2] the relief loop exits immediately (the
centered-difference rho_grad is [-1,0,0,-1], nowhere positive) and
returns the profile unchanged, yet the adjacent pair (1,2) still has
denser water above lighter water: the claimed postcondition, a
non-positive adjacent density gradient everywhere, fails. -/
theorem static_relief_misses_adjacent_inversion :
    remove_static_instability eosSal 1 pAlt = some pAlt
    ∧ pAlt.dens 2 < pAlt.dens 1
    ∧ 0 < -((pAlt.dens 2 - pAlt.dens 1) / (pAlt.z 2 - pAlt.z 1)) := by
  refine ⟨?_, ?_, ?_⟩
  · with_unfolding_all rfl
  · with_unfolding_all decide
  · with_unfolding_all decide

/-- Claim C4, amended: in the bulk-Richardson scan, for each index j with
nonzero squared shear and bulk Richardson number at most the threshold,
mix5 is invoked on the slice `[0:j]`: cells 0 through j-1 (the half-open
range) are homogenized to their mean over `[0,j)`, cell j itself is left
unchanged, and scanning continues from j+1 without restarting. -/
theorem bulk_event_halfopen (eos : EOS) (w : World) (rho0 u0 v0 : ℚ)
    (p : Profile) (j : ℕ)
    (hvel : (p.u j - u0)^2 + (p.v j - v0)^2 ≠ 0)
    (hRi : ¬ (w.g * (p.dens j - rho0) / ((p.u j - u0)^2 + (p.v j - v0)^2)
      / (w.dz * (j : ℚ)) > w.Ri_b)) :
    bulkStep eos w rho0 u0 v0 p j = mix5 eos p 0 j
    ∧ (mix5 eos p 0 j).sal j = p.sal j
    ∧ (mix5 eos p 0 j).temp j = p.temp j
    ∧ (mix5 eos p 0 j).u j = p.u j
    ∧ (mix5 eos p 0 j).v j = p.v j
    ∧ ∀ i, i < min j p.N →
        (mix5 eos p 0 j).sal i = sliceMean p.N p.sal 0 j
        ∧ (mix5 eos p 0 j).temp i = sliceMean p.N p.temp 0 j
        ∧ (mix5 eos p 0 j).u i = sliceMean p.N p.u 0 j
        ∧ (mix5 eos p 0 j).v i = sliceMean p.N p.v 0 j := by
  have hj : ¬ (0 ≤ j ∧ j < min j p.N) := by omega
  refine ⟨?_, ?_, ?_, ?_, ?_, ?_⟩
  · unfold bulkStep
    rw [if_neg hvel, if_neg hRi]
  · show setSlice p.N p.sal 0 j (sliceMean p.N p.sal 0 j) j = p.sal j
    simp [setSlice, hj]
  · show setSlice p.N p.temp 0 j (sliceMean p.N p.temp 0 j) j = p.temp j
    simp [setSlice, hj]
  · show setSlice p.N p.u 0 j (sliceMean p.N p.u 0 j) j = p.u j
    simp [setSlice, hj]
  · show setSlice p.N p.v 0 j (sliceMean p.N p.v 0 j) j = p.v j
    simp [setSlice, hj]
  · intro i hi
    have hc : 0 ≤ i ∧ i < min j p.N := ⟨Nat.zero_le i, hi⟩
    exact ⟨by simp [mix5, setSlice, hc], by simp [mix5, setSlice, hc],
      by simp [mix5, setSlice, hc], by simp [mix5, setSlice, hc]⟩

/-- World used for the bulk-mixing evaluation: g = 1, dz = 1, bulk
threshold 1 and MLD threshold 1/2. -/
def wBulk : World :=
  { lat := 0, fcor := 0, dz := 1, g := 1, Ri_b := 1, mld_thres := 1/2 }

/-- Three-cell profile whose mixed-layer index is 2 and whose single
scanned level j = 2 triggers a mixing event (Ri_bulk = 1/2 <= 1). -/
def pBulk : Profile :=
  { N := 3, z := fun i => (i : ℚ),
    temp := fun i => if i = 0 then 10 else if i = 1 then 20 else 30,
    sal := fun i => if i = 0 then 10 else if i = 1 then 20 else 30,
    dens := fun i => if i = 2 then 2 else 1,
    u := fun i => if i = 2 then 1 else 0,
    v := fun _ => 0, absorb := fun _ => 0 }

/-- Witness for the amended C4: at the concrete profile, the scan step at
j = 2 reduces to `mix5 p 0 2`, and cell 2 keeps its salinity. -/
theorem bulk_event_halfopen_witness :
    bulkStep eosSal wBulk (pBulk.dens 0) (pBulk.u 0) (pBulk.v 0) pBulk 2
      = mix5 eosSal pBulk 0 2
    ∧ (mix5 eosSal pBulk 0 2).sal 2 = pBulk.sal 2 := by
  have h := bulk_event_halfopen eosSal wBulk (pBulk.dens 0) (pBulk.u 0)
    (pBulk.v 0) pBulk 2 (by with_unfolding_all decide)
    (by with_unfolding_all decide)
  exact ⟨h.1, h.2.1⟩

/-- Claim C4, counterexample: the claim says cells 0 through j inclusive
are homogenized; on pBulk the mixing event fires at j = 2, after which
cells 0 and 1 hold the mean 15 of cells [0,2) while cell 2 still holds
30: cell j is not part of the homogenized range. -/
theorem bulk_mix_excludes_cell_j :
    (bulk_mix eosSal wBulk pBulk).map (fun q => (q.sal 1, q.sal 2))
      = Except.ok (15, 30)
    ∧ ((15 : ℚ) ≠ 30) := by
  refine ⟨?_, by norm_num⟩
  with_unfolding_all rfl

/-- Constant equation of state, value 1. -/
def eosOne : EOS := fun _ _ _ => 1

/-- World for the gradient-mixing evaluation: g = 1, dz = 1, Ri_g at its
default 1/4. -/
def wGrad : World := { lat := 0, fcor := 0, dz := 1, dt := 1, g := 1 }

/-- Two-cell profile with one critical pair: Ri[0] = 1/10 <= 1/4, so the
loop performs exactly one symmetric partial exchange at (0,1). -/
def pGrad : Profile :=
  { N := 2, z := fun i => (i : ℚ),
    temp := fun i => if i = 0 then 10 else 20,
    sal := fun i => if i = 0 then 5 else 7,
    dens := fun i => if i = 0 then 1 else 11/10,
    u := fun i => if i = 0 then 0 else 1,
    v := fun _ => 0, absorb := fun _ => 0 }

/-- Claim C5: the exchange at the pair (0,1) mutates temp and sal at cell
1 (blend factor f = 169/269, so temp[1] becomes 4535/269 and sal[1]
becomes 1714/269), but dens[1] still holds its stale value 11/10, whereas
the equation of state at the new temp/sal of cell 1 returns 1: the slice
`dens[j* : j*+1]` recomputed density at j* = 0 only, not at j*+1. -/
theorem grad_mix_stale_density :
    (grad_mix eosOne wGrad 2 pGrad).map (fun q => (q.dens 1, q.temp 1, q.sal 1))
      = some (11/10, 4535/269, 1714/269)
    ∧ eosOne (1714/269) (4535/269) (pGrad.z 1) = 1
    ∧ ((11 : ℚ)/10 ≠ 1) := by
  refine ⟨?_, rfl, by norm_num⟩
  with_unfolding_all rfl

/-- Equation of state returning the depth. -/
def eosZ : EOS := fun _ _ z => z

/-- World with heat_ON = false (and drag off, zero Coriolis value, unit
grid constants) for the flag-gating evaluation. -/
def wHeat : World :=
  { lat := 0, fcor := 0, dz := 1, dt := 1, cpw := 1, mld_thres := 1/2,
    heat_ON := false, drag_ON := false }

/-- Uniform 10-degree column with absorb concentrated in the surface
cell. -/
def pHeat : Profile :=
  { N := 3, z := fun i => (i : ℚ) + 1, temp := fun _ => 10, sal := fun _ => 5,
    dens := fun _ => 1, u := fun _ => 0, v := fun _ => 0,
    absorb := fun i => if i = 0 then 1 else 0 }

/-- Forcing with nonzero q_in and q_out and no wind or freshwater. -/
def frcHeat : Forcing := { taux := 0, tauy := 0, q_in := 50, q_out := 100, emp := 0 }

/-- Claim C6: with heat_ON = false and nonzero q_in/q_out, a full
timestep still changes temp: pwp_step never calls flag_forcing, so
update_surface applies the heat fluxes and the surface temperature moves
from 10 to 160. -/
theorem pwp_step_ignores_heat_flag :
    wHeat.heat_ON = false
    ∧ frcHeat.q_in ≠ 0
    ∧ frcHeat.q_out ≠ 0
    ∧ pHeat.temp 0 = 10
    ∧ (pwp_step eosZ wHeat 1 1 pHeat frcHeat).map (fun r => r.map (fun q => q.temp 0))
      = some (Except.ok 160) := by
  refine ⟨rfl, by with_unfolding_all decide, by with_unfolding_all decide, rfl, ?_⟩
  with_unfolding_all rfl
